import Mathlib

/-!
Verification of the droxy per-target operation queue, chain façade, resolver
and promise-adapting helper against the source in `src/index.js` and the two
package variants in `src/unnamed/part_000`.

The queue scheduler (`createQueue` / `runQueue`) is embedded as a small-step
interpreter over an explicit state: three lanes of work items, the
re-entrancy flag `isRunning`, a virtual clock (an item's `await fn(...)`
advances the clock by the item's latency) and an execution log.  A work item
may, while it executes, enqueue further items on any lane; this models
re-entrant calls to `addToQueue` / `prioritize` / `defer` made from inside a
running item (the nested `runQueue()` call returns immediately because
`isRunning` is set, so the net effect of such a call is exactly a push onto
the corresponding lane).  Loops that the JavaScript writes as `while` are
written with explicit fuel; theorems hypothesise enough fuel, which is
justified by the drain lemmas below.
-/

namespace Droxy

/-- The three lanes of `createQueue`: `priorityQueue`, `mainQueue`,
`deferredQueue`. -/
inductive Lane : Type where
  | priority : Lane
  | main : Lane
  | deferred : Lane
deriving DecidableEq, Repr

/-- A work item: an identifier, the virtual duration of awaiting its action,
and the enqueue operations its action performs while it runs (re-entrant
`prioritize` / `addToQueue` / `defer` calls, e.g. from event handlers fired
or functions called during the item's execution). -/
inductive Item : Type where
  | mk (id : Nat) (latency : Nat) (effects : List (Lane × Item))

def Item.id : Item → Nat
  | .mk i _ _ => i

def Item.latency : Item → Nat
  | .mk _ l _ => l

def Item.effects : Item → List (Lane × Item)
  | .mk _ _ e => e

/-- One record of the execution log: which item ran, from which lane it was
popped, how many priority- and main-lane items were pending at the moment its
action was invoked, and the virtual start and finish times of awaiting it. -/
structure Entry : Type where
  id : Nat
  lane : Lane
  pPend : Nat
  mPend : Nat
  start : Nat
  finish : Nat
deriving DecidableEq, Repr

/-- The state of one `createQueue` instance, plus the instrumentation
(clock, log) used to state the ordering claims. -/
structure QS : Type where
  priorityQueue : List Item
  mainQueue : List Item
  deferredQueue : List Item
  isRunning : Bool
  clock : Nat
  log : List Entry

/-- `push lane it s`: append `it` to the given lane (JavaScript `push`). -/
def push (lane : Lane) (it : Item) (s : QS) : QS :=
  match lane with
  | .priority => { s with priorityQueue := s.priorityQueue ++ [it] }
  | .main => { s with mainQueue := s.mainQueue ++ [it] }
  | .deferred => { s with deferredQueue := s.deferredQueue ++ [it] }

/-- Apply, in order, the enqueue operations an item performs while it
executes. -/
def pushEffects (s : QS) : List (Lane × Item) → QS
  | [] => s
  | e :: es => pushEffects (push e.1 e.2 s) es

/-- Execute one popped item: `await fn(...args)` in `runQueue`.  `s` is the
state just after the item was shifted off its lane; the log entry records the
lane sizes at invocation, the effects are applied (re-entrant enqueues), and
the clock advances by the item's latency. -/
def execItem (lane : Lane) (s : QS) (it : Item) : QS :=
  let entry : Entry :=
    { id := it.id, lane := lane, pPend := s.priorityQueue.length,
      mPend := s.mainQueue.length, start := s.clock,
      finish := s.clock + it.latency }
  let s1 := pushEffects s it.effects
  { s1 with clock := s.clock + it.latency, log := s1.log ++ [entry] }

/-- The main drain loop of `runQueue`:
`while (priorityQueue.length > 0 || mainQueue.length > 0) { if (priorityQueue.length > 0) {shift priority; await} else if (mainQueue.length > 0) {shift main; await} }`. -/
def mainLoop : Nat → QS → QS
  | 0, s => s
  | fuel + 1, s =>
    match s.priorityQueue, s.mainQueue with
    | it :: rest, _ => mainLoop fuel (execItem .priority { s with priorityQueue := rest } it)
    | [], it :: rest => mainLoop fuel (execItem .main { s with mainQueue := rest } it)
    | [], [] => s

/-- The deferred drain loop of `runQueue`:
`while (deferredQueue.length > 0) {shift deferred; await}`.  Note it
re-checks only the deferred lane each iteration. -/
def deferredLoop : Nat → QS → QS
  | 0, s => s
  | fuel + 1, s =>
    match s.deferredQueue with
    | it :: rest => deferredLoop fuel (execItem .deferred { s with deferredQueue := rest } it)
    | [] => s

/-- `runQueue`: return at once if already running (re-entrancy guard), else
set the flag, drain priority/main, then — only if the deferred lane is
non-empty and both other lanes are empty — drain the deferred lane, and
finally clear the flag. -/
def runQueue (fuel : Nat) (s : QS) : QS :=
  if s.isRunning then s
  else
    let s1 := mainLoop fuel { s with isRunning := true }
    let s2 :=
      if 0 < s1.deferredQueue.length ∧ s1.mainQueue.length = 0 ∧ s1.priorityQueue.length = 0 then
        deferredLoop fuel s1
      else s1
    { s2 with isRunning := false }

/-- `addToQueue(fn)`: push onto the main lane and call `runQueue`. -/
def addToQueue (fuel : Nat) (fn : Item) (s : QS) : QS :=
  runQueue fuel (push .main fn s)

/-- `prioritize(fn, args)`: push onto the priority lane and call `runQueue`. -/
def prioritize (fuel : Nat) (fn : Item) (s : QS) : QS :=
  runQueue fuel (push .priority fn s)

/-- `defer(fn, args)`: push onto the deferred lane; call `runQueue` only when
not already running. -/
def defer (fuel : Nat) (fn : Item) (s : QS) : QS :=
  let s1 := push .deferred fn s
  if s1.isRunning then s1 else runQueue fuel s1

/-- A log is sequential when each entry's await finishes exactly when the
next entry's action is invoked: no later item starts before the in-flight
item's completion has been awaited. -/
def seqOK : List Entry → Bool
  | [] => true
  | [_] => true
  | a :: b :: rest => a.finish == b.start && seqOK (b :: rest)

mutual

/-- Size of a work item: itself plus everything it will transitively
enqueue.  Used as the termination measure of the drain loops. -/
def Item.size : Item → Nat
  | .mk _ _ effs => 1 + effsSize effs

/-- Total size of a list of enqueue effects. -/
def effsSize : List (Lane × Item) → Nat
  | [] => 0
  | e :: es => Item.size e.2 + effsSize es

end

/-- Total size of the items in one lane. -/
def itemsSize : List Item → Nat
  | [] => 0
  | i :: is => i.size + itemsSize is

/-- Combined size of the priority and main lanes. -/
def lanesMP (s : QS) : Nat :=
  itemsSize s.priorityQueue + itemsSize s.mainQueue

/-- Size of the deferred lane. -/
def dSize (s : QS) : Nat :=
  itemsSize s.deferredQueue

/-- Sum of the latencies of a list of items. -/
def latSum : List Item → Nat
  | [] => 0
  | it :: rest => it.latency + latSum rest

/-- The log entries produced by draining a run of effect-free main-lane
items starting at clock `c`: strict FIFO, each invocation starting exactly
when the previous await finished. -/
def fifoEntries : Nat → List Item → List Entry
  | _, [] => []
  | c, it :: rest =>
    { id := it.id, lane := .main, pPend := 0, mPend := rest.length,
      start := c, finish := c + it.latency } :: fifoEntries (c + it.latency) rest

/-- A fresh queue whose main lane holds `ms`. -/
def startMain (ms : List Item) : QS :=
  { priorityQueue := [], mainQueue := ms, deferredQueue := [],
    isRunning := false, clock := 0, log := [] }

/-- A fresh queue whose deferred lane holds `ds`. -/
def startDeferred (ds : List Item) : QS :=
  { priorityQueue := [], mainQueue := [], deferredQueue := ds,
    isRunning := false, clock := 0, log := [] }

/-!
## The `createApplyFunc` wrapper

`createApplyFunc` wraps each chainable operation's underlying action in an
async thunk that resolves thenable arguments in order, invokes the action,
awaits a thenable result, and catches anything thrown, reporting it to
`defaultErrorHandler` together with the context descriptor built by
`giveContext`.
-/

/-- An error value (a thrown exception or a rejection reason). -/
abbrev Err := String

/-- A positional argument as inspected by the wrapper: a plain value, or a
thenable that on `await` either fulfils or rejects. -/
inductive JSVal : Type where
  | plain (v : Int)
  | thenable (r : Except Err Int)

/-- `isThenable` from the source. -/
def isThenable : JSVal → Bool
  | .plain _ => false
  | .thenable _ => true

/-- The value returned by the wrapped action: a plain value, or a thenable
the wrapper must await — which may reject. -/
inductive JSResult : Type where
  | value (v : Int)
  | promise (r : Except Err Int)

/-- The argument-resolution loop of the wrapper: each argument is inspected
in order and awaited when thenable; the first rejecting thenable aborts the
try-block with its reason. -/
def resolveArgs : List JSVal → Except Err (List Int)
  | [] => .ok []
  | .plain v :: rest => (resolveArgs rest).map (fun l => v :: l)
  | .thenable (.ok v) :: rest => (resolveArgs rest).map (fun l => v :: l)
  | .thenable (.error e) :: _ => .error e

/-- `giveContext(methodName, selector)` from the source: the error-context
descriptor naming the failing operation and the originating selector. -/
def giveContext (methodName selector : String) : String :=
  if methodName = "$" then "$" ++ selector
  else if methodName = "$$" then "$$" ++ selector
  else "The method: " ++ methodName ++ " called on: " ++ selector

/-- One chainable operation instance: its identifier, call-time arguments,
underlying action, and the method/selector pair captured by `makeMethod`
for the context descriptor. -/
structure Op : Type where
  id : Nat
  args : List JSVal
  fn : List Int → Except Err JSResult
  method : String
  selector : String

/-- The try-block of the queued thunk: resolve the arguments sequentially,
invoke the action, and await a thenable result; the first throw or rejection
escapes as an error. -/
def tryBody (op : Op) : Except Err Unit := do
  let vals ← resolveArgs op.args
  let result ← op.fn vals
  match result with
  | .promise (.error e) => Except.error e
  | _ => Except.ok ()

/-- The whole queued thunk: the try-block wrapped in the catch, which passes
the error and the context descriptor to `defaultErrorHandler`.  The value is
the list of handler invocations the thunk makes; the thunk itself never lets
an exception escape (its type is total). -/
def wrappedThunk (op : Op) : List (Err × String) :=
  match tryBody op with
  | .ok _ => []
  | .error e => [(e, giveContext op.method op.selector)]

/-- The handler invocation a single operation produces, if it fails. -/
def failCall (op : Op) : Option (Err × String) :=
  match tryBody op with
  | .ok _ => none
  | .error e => some (e, giveContext op.method op.selector)

/-- The queue runner over a chain of wrapped items: each popped thunk is
awaited — it never rejects, because the wrapper catches at the item
boundary — and the runner proceeds to the next item unconditionally.
Returns the invocation order and the accumulated handler calls. -/
def runChain : List Op → List Nat × List (Err × String)
  | [] => ([], [])
  | op :: rest =>
    let r := runChain rest
    (op.id :: r.1, wrappedThunk op ++ r.2)

/-!
## The synchronous window of a chainable call

A chainable call runs `addToQueue(thunk)` and then returns the façade.
`addToQueue` pushes and invokes the async `runQueue()`, whose body executes
synchronously up to its first `await`; evaluating `await fn(...)` first
calls the thunk, whose own body also executes synchronously up to its first
`await`.  When no argument is a thenable the loop
`resolvedArgs.push(isThenable(arg) ? await arg : arg)` performs no await,
so `fn(...resolvedArgs)` — the underlying action — is invoked inside that
synchronous window, before the façade is returned.  The following model
records the events observable during one chainable call.
-/

/-- Events observable around one chainable-operation call. -/
inductive CEv : Type where
  | enqueued (id : Nat)
  | actionInvoked (id : Nat)
  | facadeReturned (id : Nat)
deriving DecidableEq, Repr

/-- A queued thunk: its id, and whether some positional argument is a
thenable (making the thunk's body suspend at `await arg` before invoking
the action). -/
structure CThunk : Type where
  id : Nat
  argAwaited : Bool
deriving DecidableEq, Repr

/-- Queue state for the synchronous-window model. -/
structure CallQueue : Type where
  mainQueue : List CThunk
  isRunning : Bool
  events : List CEv
deriving DecidableEq, Repr

/-- The events of a queued thunk's body up to its first suspension point:
with no thenable argument the action itself is invoked synchronously. -/
def thunkSyncEvents (t : CThunk) : List CEv :=
  if t.argAwaited then [] else [.actionInvoked t.id]

/-- The part of a `runQueue()` invocation that executes synchronously in the
caller: nothing if the guard fires; otherwise the flag is set, the first
item is shifted and its synchronous prefix runs, and the caller regains
control at `await fn()` (an `await` always suspends, even on an
already-settled value).  With no pending item the whole call completes
synchronously. -/
def runQueueSync (s : CallQueue) : CallQueue :=
  if s.isRunning then s
  else
    match s.mainQueue with
    | [] => { s with isRunning := false }
    | t :: rest =>
      { mainQueue := rest, isRunning := true, events := s.events ++ thunkSyncEvents t }

/-- One chainable-operation call, as built by `createApplyFunc`: push the
thunk, call `runQueue()` (synchronous window only), then return the façade. -/
def applyFuncCall (s : CallQueue) (t : CThunk) : CallQueue :=
  let s1 := runQueueSync
    { s with mainQueue := s.mainQueue ++ [t], events := s.events ++ [.enqueued t.id] }
  { s1 with events := s1.events ++ [.facadeReturned t.id] }

/-- `occursBefore a b l`: some occurrence of `a` precedes an occurrence of
`b` in `l`, with no occurrence of `b` before that `a`. -/
def occursBefore (a b : CEv) : List CEv → Bool
  | [] => false
  | x :: xs =>
    if x = a then xs.contains b
    else if x = b then false
    else occursBefore a b xs

/-!
## The target resolver and the DOM model

Elements, documents, selector matching and markup parsing are platform
behaviour (`document.querySelector`, `innerHTML`, `setHTML`); they are
modelled minimally: an element carries the selectors it matches, a document
carries its elements in document order together with an id bound `nextId`
(every attached element has `eid < nextId`), and parsing a simple flat
fragment allocates fresh ids from `nextId` upward, so parsed elements are
detached. -/

/-- A DOM element handle. -/
structure Elem : Type where
  eid : Nat
  tag : String
  sels : List String
deriving DecidableEq, Repr

/-- A document: elements in document order plus the id-allocation bound. -/
structure Doc : Type where
  elems : List Elem
  nextId : Nat
deriving DecidableEq, Repr

/-- `document.querySelector`: the first match, or null. -/
def querySelector (doc : Doc) (sel : String) : Option Elem :=
  doc.elems.find? (fun e => e.sels.contains sel)

/-- `document.querySelectorAll`: every match in document order. -/
def querySelectorAll (doc : Doc) (sel : String) : List Elem :=
  doc.elems.filter (fun e => e.sels.contains sel)

/-- ASCII whitespace, as trimmed by `String.prototype.trim`. -/
def isSpaceChar (c : Char) : Bool :=
  c = ' ' || c = '\t' || c = '\n' || c = '\r'

/-- The character data of `s.trim()` (whitespace stripped from both ends),
written over `String.data` so it evaluates. -/
def trimData (s : String) : List Char :=
  ((s.data.dropWhile isSpaceChar).reverse.dropWhile isSpaceChar).reverse

/-- The dispatch test of the resolver:
`typeof item === "string" && item.trim().startsWith("<")`. -/
def isMarkup (s : String) : Bool :=
  match trimData s with
  | '<' :: _ => true
  | _ => false

/-- Split a character list on a separator (`String.prototype.split`). -/
def splitOnChar (sep : Char) : List Char → List (List Char)
  | [] => [[]]
  | c :: cs =>
    let r := splitOnChar sep cs
    if c = sep then [] :: r
    else
      match r with
      | [] => [[c]]
      | p :: ps => (c :: p) :: ps

/-- Modelled from the spec: the browser parse of a simple flat markup
fragment ("<div>", "<p><span>", ...) — the top-level tag names in order.
The parse itself is platform behaviour (`innerHTML` / `setHTML` on a
detached container), not code under `src/`. -/
def tagsOf (s : String) : List String :=
  (splitOnChar '<' (trimData s)).filterMap
    (fun piece =>
      if piece = [] then none
      else some (String.mk (piece.takeWhile (fun c => c != '>'))))

/-- Modelled from the spec: tag names the sanitizing parse path strips
(sanitization is delegated to the platform `setHTML`). -/
def strippedTags : List String := ["script"]

/-- Which parse path `createDOMFromString` took. -/
inductive ParsePath : Type where
  | sanitized
  | unsanitized
deriving DecidableEq, Repr

/-- Allocate ids for freshly parsed elements, starting at `nextId`. -/
def withIds (nextId : Nat) : List String → List Elem
  | [] => []
  | t :: ts => { eid := nextId, tag := t, sels := [] } :: withIds (nextId + 1) ts

/-- `createDOMFromString(string, sanitize = true)`: build detached elements
from a markup string; the flag selects `div.setHTML(string)` (sanitizing)
over `div.innerHTML = string` (raw).  Also records which path ran. -/
def createDOMFromString (nextId : Nat) (string : String) (sanitize : Bool := true) :
    ParsePath × List Elem :=
  if sanitize then
    (.sanitized, withIds nextId ((tagsOf string).filter (fun t => !strippedTags.contains t)))
  else
    (.unsanitized, withIds nextId (tagsOf string))

/-- An input to the resolver: a string (markup or selector) or an existing
element handle. -/
inductive JSInput : Type where
  | str (s : String)
  | element (e : Elem)

/-- What the resolver returns: the slots of the produced array — a slot is
`none` for a null entry — plus, when the markup branch ran, which parse
path it used. -/
structure ResolveOut : Type where
  elems : List (Option Elem)
  parsed : Option ParsePath
deriving DecidableEq, Repr

/-- `getDOMElement(item, sanitize = true, all = false)` from `src/index.js`
and the first `part_000` variant: markup strings are parsed, element handles
pass through, and selector strings query the document (all matches, or the
first match as a one-slot array that may hold null). -/
def getDOMElement (doc : Doc) (item : JSInput) (sanitize : Bool := true)
    (all : Bool := false) : ResolveOut :=
  match item with
  | .str s =>
    if isMarkup s then
      let p := createDOMFromString doc.nextId s sanitize
      { elems := p.2.map some, parsed := some p.1 }
    else if all then { elems := (querySelectorAll doc s).map some, parsed := none }
    else { elems := [querySelector doc s], parsed := none }
  | .element e => { elems := [some e], parsed := none }

/-- Options record of the refactored resolver. -/
structure ROpts : Type where
  all : Bool := false
  sanitize : Bool := true

/-- `getDOMElement(item, options)` from the `part_000` refactor (the
NodeList branch is not modelled; inputs here are strings or one handle). -/
def getDOMElementR (doc : Doc) (item : JSInput) (opts : ROpts) : ResolveOut :=
  match item with
  | .str s =>
    if isMarkup s then
      let p := createDOMFromString doc.nextId s opts.sanitize
      { elems := p.2.map some, parsed := some p.1 }
    else if opts.all then { elems := (querySelectorAll doc s).map some, parsed := none }
    else { elems := [querySelector doc s], parsed := none }
  | .element e => { elems := [some e], parsed := none }

/-- JS truthiness of the first slot of the resolver's array: `!element[0]`
is true when the array is empty or its first slot is null. -/
def falsyFirst : List (Option Elem) → Bool
  | [] => true
  | none :: _ => true
  | some _ :: _ => false

/-- The chainable façade, reduced to what the resolution claims need: the
originating selector and the slots it wraps (the single/collection dispatch
and the method table are orthogonal to these claims). -/
structure Facade : Type where
  selector : String
  targets : List (Option Elem)
deriving DecidableEq, Repr

/-- `addProxy` from `src/index.js` — the strict variant: it throws
synchronously when nothing was found.  Note it passes `sanitize := false`
explicitly to the resolver. -/
def addProxy (doc : Doc) (type : String) (string : String) : Except String Facade :=
  let element := (getDOMElement doc (.str string) false (type = "$$")).elems
  if falsyFirst element then
    .error ("No element found for selector: " ++ string)
  else
    .ok { selector := string, targets := element }

/-- `createProxy` from the `part_000` refactor — the non-strict variant: it
warns when nothing was found and proceeds to build the façade anyway.
Returns the warnings emitted alongside the façade; the function is total,
so the call cannot throw. -/
def createProxy (doc : Doc) (type : String) (selector : String) :
    List String × Facade :=
  let elements := (getDOMElementR doc (.str selector)
    { all := type = "$$", sanitize := false }).elems
  let warns :=
    if falsyFirst elements then ["No elements found for selector: " ++ selector] else []
  (warns, { selector := selector, targets := elements })

/-!
## The promise-adapting helper `promisify`

`promisify(fn, timeout = 5000, meta)` returns a function producing a
promise that settles at most once: the guarded `Resolve` / `Reject`
wrappers and the timeout callback all check and set a shared `settled`
flag.  The promise's lifecycle is modelled as a state threaded through the
callback invocations; the timer scheduled for `timeout` fires between the
callback invocations made strictly before `timeout` and those made at or
after it. -/

/-- The metadata object surfaced to the error handler on timeout. -/
structure Meta : Type where
  fnName : String
  fnArgs : String
deriving DecidableEq, Repr

/-- How the promise settled. -/
inductive POutcome : Type where
  | resolved (v : String)
  | rejected (reason : String)
deriving DecidableEq, Repr

/-- The state of one promisified invocation: the `settled` flag, the
outcome, the error-handler invocations made, and when settlement happened. -/
structure PState : Type where
  settled : Bool
  outcome : Option POutcome
  handlerCalls : List (String × Meta)
  settledAt : Option Nat
deriving DecidableEq, Repr

/-- The fresh state when the executor starts. -/
def initP : PState :=
  { settled := false, outcome := none, handlerCalls := [], settledAt := none }

/-- The timeout error message from the source. -/
def timeoutMsg (timeout : Nat) : String :=
  "Timeout: " ++ toString timeout ++ "ms exceeded."

/-- The guarded `Resolve` wrapper, invoked at time `t`. -/
def doResolve (t : Nat) (v : String) (s : PState) : PState :=
  if s.settled then s
  else { settled := true, outcome := some (.resolved v),
         handlerCalls := s.handlerCalls, settledAt := some t }

/-- The guarded `Reject` wrapper, invoked at time `t`. -/
def doReject (t : Nat) (reason : String) (s : PState) : PState :=
  if s.settled then s
  else { settled := true, outcome := some (.rejected reason),
         handlerCalls := s.handlerCalls, settledAt := some t }

/-- The `setTimeout` callback: if nothing has settled, resolve with the
empty string and report a timeout error with the metadata object. -/
def fireTimeout (timeout : Nat) (meta : Meta) (s : PState) : PState :=
  if s.settled then s
  else { settled := true, outcome := some (.resolved ""),
         handlerCalls := s.handlerCalls ++ [(timeoutMsg timeout, meta)],
         settledAt := some timeout }

/-- A callback invocation made by the wrapped function. -/
inductive CB : Type where
  | resolveCB (v : String)
  | rejectCB (reason : String)
deriving DecidableEq, Repr

/-- Apply one callback invocation at its time. -/
def applyCB (t : Nat) (c : CB) (s : PState) : PState :=
  match c with
  | .resolveCB v => doResolve t v s
  | .rejectCB r => doReject t r s

/-- Apply a chronological run of callback invocations. -/
def applyCBs (calls : List (Nat × CB)) (s : PState) : PState :=
  calls.foldl (fun st c => applyCB c.1 c.2 st) s

/-- One full promisified invocation: the callback invocations before the
timer, then the timer, then the rest. -/
def runPromisify (timeout : Nat) (meta : Meta) (calls : List (Nat × CB)) : PState :=
  applyCBs (calls.filter (fun c => !decide (c.1 < timeout)))
    (fireTimeout timeout meta (applyCBs (calls.filter (fun c => decide (c.1 < timeout))) initP))

/-- The default parameters of `promisify`:
`timeout = 5000`, `meta = { fnName: "anonymous", fnArgs: "unknown" }`. -/
def promisifyDefaults : Nat × Meta :=
  (5000, { fnName := "anonymous", fnArgs := "unknown" })

theorem Item.size_pos (it : Item) : 0 < it.size := by
  cases it with
  | mk i l effs => simp [Item.size]

theorem Item.size_eq (it : Item) : it.size = 1 + effsSize it.effects := by
  cases it with
  | mk i l effs => simp [Item.size, Item.effects]

theorem itemsSize_append (l1 l2 : List Item) :
    itemsSize (l1 ++ l2) = itemsSize l1 + itemsSize l2 := by
  induction l1 with
  | nil => simp [itemsSize]
  | cons i is ih => simp [itemsSize, ih]; omega

theorem itemsSize_eq_zero {l : List Item} (h : itemsSize l = 0) : l = [] := by
  cases l with
  | nil => rfl
  | cons i is =>
    exfalso
    have := Item.size_pos i
    simp [itemsSize] at h
    omega

theorem push_fields (lane : Lane) (it : Item) (s : QS) :
    (push lane it s).clock = s.clock ∧ (push lane it s).log = s.log ∧
      (push lane it s).isRunning = s.isRunning := by
  cases lane <;> simp [push]

theorem pushEffects_fields (effs : List (Lane × Item)) :
    ∀ s : QS, (pushEffects s effs).clock = s.clock ∧
      (pushEffects s effs).log = s.log ∧
      (pushEffects s effs).isRunning = s.isRunning := by
  induction effs with
  | nil => intro s; simp [pushEffects]
  | cons e es ih =>
    intro s
    have h1 := push_fields e.1 e.2 s
    have h2 := ih (push e.1 e.2 s)
    simp only [pushEffects]
    exact ⟨h2.1.trans h1.1, h2.2.1.trans h1.2.1, h2.2.2.trans h1.2.2⟩

theorem lanesMP_push_le (lane : Lane) (it : Item) (s : QS) :
    lanesMP (push lane it s) ≤ lanesMP s + it.size := by
  cases lane <;> simp [push, lanesMP, itemsSize_append, itemsSize] <;> omega

theorem dSize_push_le (lane : Lane) (it : Item) (s : QS) :
    dSize (push lane it s) ≤ dSize s + it.size := by
  cases lane <;> simp [push, dSize, itemsSize_append, itemsSize, Nat.le_add_right]

theorem lanesMP_pushEffects_le (effs : List (Lane × Item)) :
    ∀ s : QS, lanesMP (pushEffects s effs) ≤ lanesMP s + effsSize effs := by
  induction effs with
  | nil => intro s; simp [pushEffects, effsSize]
  | cons e es ih =>
    intro s
    have h1 := lanesMP_push_le e.1 e.2 s
    have h2 := ih (push e.1 e.2 s)
    simp only [pushEffects, effsSize]
    omega

theorem dSize_pushEffects_le (effs : List (Lane × Item)) :
    ∀ s : QS, dSize (pushEffects s effs) ≤ dSize s + effsSize effs := by
  induction effs with
  | nil => intro s; simp [pushEffects, effsSize]
  | cons e es ih =>
    intro s
    have h1 := dSize_push_le e.1 e.2 s
    have h2 := ih (push e.1 e.2 s)
    simp only [pushEffects, effsSize]
    omega

theorem lanesMP_execItem_le (lane : Lane) (s : QS) (it : Item) :
    lanesMP (execItem lane s it) ≤ lanesMP s + effsSize it.effects := by
  have h := lanesMP_pushEffects_le it.effects s
  simp only [execItem, lanesMP] at *
  exact h

theorem dSize_execItem_le (lane : Lane) (s : QS) (it : Item) :
    dSize (execItem lane s it) ≤ dSize s + effsSize it.effects := by
  have h := dSize_pushEffects_le it.effects s
  simp only [execItem, dSize] at *
  exact h

/-- Given fuel at least the total transitive size of the priority and main
lanes, the main drain loop empties both lanes: the `while` loop of
`runQueue` runs until `priorityQueue.length > 0 || mainQueue.length > 0`
fails. -/
theorem mainLoop_drains :
    ∀ (fuel : Nat) (s : QS), lanesMP s ≤ fuel →
      (mainLoop fuel s).priorityQueue = [] ∧ (mainLoop fuel s).mainQueue = [] := by
  intro fuel
  induction fuel with
  | zero =>
    intro s h
    simp only [mainLoop]
    simp only [lanesMP, Nat.le_zero] at h
    exact ⟨itemsSize_eq_zero (by omega), itemsSize_eq_zero (by omega)⟩
  | succ fuel ih =>
    intro s h
    rcases hp : s.priorityQueue with _ | ⟨it, rest⟩
    · rcases hm : s.mainQueue with _ | ⟨it, rest⟩
      · simp [mainLoop, hp, hm]
      · have key : mainLoop (fuel + 1) s =
            mainLoop fuel (execItem .main { s with mainQueue := rest } it) := by
          simp [mainLoop, hp, hm]
        rw [key]
        apply ih
        have hb := lanesMP_execItem_le .main { s with mainQueue := rest } it
        have hsz := Item.size_eq it
        simp only [lanesMP, hp, hm, itemsSize] at h hb ⊢
        omega
    · have key : mainLoop (fuel + 1) s =
          mainLoop fuel (execItem .priority { s with priorityQueue := rest } it) := by
        simp [mainLoop, hp]
      rw [key]
      apply ih
      have hb := lanesMP_execItem_le .priority { s with priorityQueue := rest } it
      have hsz := Item.size_eq it
      simp only [lanesMP, hp, itemsSize] at h hb ⊢
      omega

/-- Given fuel at least the total transitive size of the deferred lane, the
deferred drain loop empties it — including items appended to the lane while
it is draining. -/
theorem deferredLoop_drains :
    ∀ (fuel : Nat) (s : QS), dSize s ≤ fuel →
      (deferredLoop fuel s).deferredQueue = [] := by
  intro fuel
  induction fuel with
  | zero =>
    intro s h
    simp only [deferredLoop]
    simp only [dSize, Nat.le_zero] at h
    exact itemsSize_eq_zero h
  | succ fuel ih =>
    intro s h
    rcases hd : s.deferredQueue with _ | ⟨it, rest⟩
    · simp [deferredLoop, hd]
    · have key : deferredLoop (fuel + 1) s =
          deferredLoop fuel (execItem .deferred { s with deferredQueue := rest } it) := by
        simp [deferredLoop, hd]
      rw [key]
      apply ih
      have hb := dSize_execItem_le .deferred { s with deferredQueue := rest } it
      have hsz := Item.size_eq it
      simp only [dSize, hd, itemsSize] at h hb ⊢
      omega

theorem fifoEntries_map_id (c : Nat) (ms : List Item) :
    (fifoEntries c ms).map Entry.id = ms.map Item.id := by
  induction ms generalizing c with
  | nil => simp [fifoEntries]
  | cons it rest ih => simp [fifoEntries, ih]

theorem seqOK_fifoEntries (ms : List Item) :
    ∀ c : Nat, seqOK (fifoEntries c ms) = true := by
  induction ms with
  | nil => intro c; simp [fifoEntries, seqOK]
  | cons it rest ih =>
    intro c
    cases rest with
    | nil => simp [fifoEntries, seqOK]
    | cons it2 rest2 =>
      have h := ih (c + it.latency)
      simp only [fifoEntries, seqOK] at h ⊢
      simp [h]

/-- Draining the main loop from a state whose priority lane is empty and
whose main-lane items perform no re-entrant enqueues pops the items one by
one in FIFO order, awaiting each completion before the next pop. -/
theorem mainLoop_fifo (ms : List Item) :
    ∀ (fuel : Nat) (s : QS), s.priorityQueue = [] → s.mainQueue = ms →
      (∀ m ∈ ms, m.effects = []) → ms.length ≤ fuel →
      mainLoop fuel s =
        { s with mainQueue := [], clock := s.clock + latSum ms,
                 log := s.log ++ fifoEntries s.clock ms } := by
  induction ms with
  | nil =>
    intro fuel s hp hm _ _
    cases fuel with
    | zero =>
      simp only [mainLoop, fifoEntries, latSum]
      cases s
      simp_all
    | succ fuel =>
      simp only [mainLoop, hp, hm, fifoEntries, latSum]
      cases s
      simp_all
  | cons it rest ih =>
    intro fuel s hp hm hE hf
    cases fuel with
    | zero => simp at hf
    | succ fuel =>
      have key : mainLoop (fuel + 1) s =
          mainLoop fuel (execItem .main { s with mainQueue := rest } it) := by
        simp [mainLoop, hp, hm]
      have heff : it.effects = [] := hE it (by simp [hm])
      have hexec : execItem .main { s with mainQueue := rest } it =
          { s with mainQueue := rest, clock := s.clock + it.latency,
                   log := s.log ++
                     [{ id := it.id, lane := .main, pPend := 0, mPend := rest.length,
                        start := s.clock, finish := s.clock + it.latency }] } := by
        simp [execItem, heff, pushEffects, hp]
      rw [key, hexec, ih fuel _ (by simp [hp]) (by simp)
        (fun m hmem => hE m (by simp [hm, hmem])) (by simpa using Nat.le_of_succ_le_succ hf)]
      simp [fifoEntries, latSum, List.append_assoc]
      omega




/-- Claim C1: for every sequence of work items enqueued on one queue's
normal (main) lane, the queue runner executes them in strict FIFO order —
each item's action is invoked and its completion fully awaited (the await
spans the item's whole latency) before the next normal-lane item is popped,
for every assignment of completion latencies, and the run drains the queue
back to idle. -/
theorem C1_normal_lane_fifo (ms : List Item) (fuel : Nat)
    (hE : ∀ m ∈ ms, m.effects = []) (hf : ms.length ≤ fuel) :
    (runQueue fuel (startMain ms)).log.map Entry.id = ms.map Item.id ∧
    seqOK (runQueue fuel (startMain ms)).log = true ∧
    (runQueue fuel (startMain ms)).priorityQueue = [] ∧
    (runQueue fuel (startMain ms)).mainQueue = [] ∧
    (runQueue fuel (startMain ms)).deferredQueue = [] ∧
    (runQueue fuel (startMain ms)).isRunning = false := by
  have hm := mainLoop_fifo ms fuel
    { priorityQueue := [], mainQueue := ms, deferredQueue := [],
      isRunning := true, clock := 0, log := [] } rfl rfl hE hf
  have hm2 : mainLoop fuel
      { priorityQueue := [], mainQueue := ms, deferredQueue := [],
        isRunning := true, clock := 0, log := [] } =
      { priorityQueue := [], mainQueue := [], deferredQueue := [],
        isRunning := true, clock := latSum ms, log := fifoEntries 0 ms } := by
    rw [hm]
    simp
  have hrun : runQueue fuel (startMain ms) =
      { priorityQueue := [], mainQueue := [], deferredQueue := [],
        isRunning := false, clock := latSum ms, log := fifoEntries 0 ms } := by
    simp [runQueue, startMain, hm2]
  rw [hrun]
  refine ⟨?_, ?_, rfl, rfl, rfl, rfl⟩
  · simpa using fifoEntries_map_id 0 ms
  · simpa using seqOK_fifoEntries ms 0

/-- Witness for C1: three mixed-latency items (5, 0, 2) run in enqueue
order, each awaited to completion before the next starts. -/
theorem C1_normal_lane_fifo_witness :
    (runQueue 3 (startMain [Item.mk 1 5 [], Item.mk 2 0 [], Item.mk 3 2 []])).log.map Entry.id
      = [1, 2, 3] ∧
    seqOK (runQueue 3 (startMain [Item.mk 1 5 [], Item.mk 2 0 [], Item.mk 3 2 []])).log
      = true := by
  have h := C1_normal_lane_fifo [Item.mk 1 5 [], Item.mk 2 0 [], Item.mk 3 2 []] 3
    (by
      intro m hm
      simp only [List.mem_cons, List.not_mem_nil, or_false] at hm
      rcases hm with rfl | rfl | rfl <;> rfl)
    (by simp)
  exact ⟨h.1.trans rfl, h.2.1⟩

/-- Claim C2: at each pop the runner takes from the immediate (priority)
lane if it is non-empty, else from the normal lane; and an immediate-lane
item enqueued during a normal-lane item's execution runs immediately after
that item's completion has been awaited — before any not-yet-started
normal-lane item — never interrupting the in-flight item. -/
theorem C2_priority_preempts_pending_not_inflight :
    (∀ (fuel : Nat) (s : QS) (it : Item) (rest : List Item),
        s.priorityQueue = it :: rest →
        mainLoop (fuel + 1) s =
          mainLoop fuel (execItem .priority { s with priorityQueue := rest } it)) ∧
    (∀ (fuel : Nat) (s : QS) (it : Item) (rest : List Item),
        s.priorityQueue = [] → s.mainQueue = it :: rest →
        mainLoop (fuel + 1) s =
          mainLoop fuel (execItem .main { s with mainQueue := rest } it)) ∧
    (∀ i1 i2 iq l1 l2 lq : Nat,
        (runQueue 3 (startMain
            [Item.mk i1 l1 [(.priority, Item.mk iq lq [])], Item.mk i2 l2 []])).log.map
            (fun e => (e.id, e.lane)) =
          [(i1, Lane.main), (iq, Lane.priority), (i2, Lane.main)] ∧
        seqOK (runQueue 3 (startMain
            [Item.mk i1 l1 [(.priority, Item.mk iq lq [])], Item.mk i2 l2 []])).log = true) := by
  refine ⟨?_, ?_, ?_⟩
  · intro fuel s it rest hp
    simp [mainLoop, hp]
  · intro fuel s it rest hp hm
    simp [mainLoop, hp, hm]
  · intro i1 i2 iq l1 l2 lq
    have hlog : (runQueue 3 (startMain
        [Item.mk i1 l1 [(.priority, Item.mk iq lq [])], Item.mk i2 l2 []])).log =
        [{ id := i1, lane := .main, pPend := 0, mPend := 1, start := 0, finish := 0 + l1 },
         { id := iq, lane := .priority, pPend := 0, mPend := 1, start := 0 + l1,
           finish := 0 + l1 + lq },
         { id := i2, lane := .main, pPend := 0, mPend := 0, start := 0 + l1 + lq,
           finish := 0 + l1 + lq + l2 }] := rfl
    rw [hlog]
    exact ⟨rfl, by simp [seqOK]⟩

/-- Witness for C2: the pop rule instantiated on singleton lanes, and the
preemption scenario at concrete ids and latencies. -/
theorem C2_priority_preempts_witness :
    mainLoop 1 { priorityQueue := [Item.mk 7 1 []], mainQueue := [], deferredQueue := [],
                 isRunning := true, clock := 0, log := [] } =
      mainLoop 0 (execItem .priority { priorityQueue := [], mainQueue := [], deferredQueue := [],
                                       isRunning := true, clock := 0, log := [] }
        (Item.mk 7 1 [])) ∧
    mainLoop 1 { priorityQueue := [], mainQueue := [Item.mk 8 1 []], deferredQueue := [],
                 isRunning := true, clock := 0, log := [] } =
      mainLoop 0 (execItem .main { priorityQueue := [], mainQueue := [], deferredQueue := [],
                                   isRunning := true, clock := 0, log := [] }
        (Item.mk 8 1 [])) ∧
    (runQueue 3 (startMain [Item.mk 1 4 [(.priority, Item.mk 9 2 [])], Item.mk 2 1 []])).log.map
        (fun e => (e.id, e.lane)) =
      [(1, Lane.main), (9, Lane.priority), (2, Lane.main)] := by
  have h := C2_priority_preempts_pending_not_inflight
  exact ⟨h.1 0 _ (Item.mk 7 1 []) [] rfl, h.2.1 0 _ (Item.mk 8 1 []) [] rfl rfl,
    (h.2.2 1 2 9 4 1 2).1⟩

/-- Counterexample to C3 as stated: with two deferred items of which the
first enqueues a normal-lane item while it runs, the second deferred item
executes while the normal lane is non-empty — the drain loop re-checks only
the deferred lane, never the other two. -/
theorem C3_counterexample_deferred_runs_with_pending_main :
    ¬ (∀ e ∈ (runQueue 4 (startDeferred
          [Item.mk 1 0 [(Lane.main, Item.mk 10 0 [])], Item.mk 2 0 []])).log,
        e.lane = Lane.deferred → e.pPend = 0 ∧ e.mPend = 0) := by
  decide

/-- Claim C3 (amended): the deferred drain phase is entered only once the
priority and main lanes have both drained empty; the first deferred item is
popped with both lanes empty at its invocation; deferred items appended
while the lane is draining are still executed, in enqueue order, before the
queue returns to idle, and the drain (given fuel covering the lane's
transitive size) empties the deferred lane.  What the original claim adds —
that *no* deferred item ever executes while the other lanes are non-empty —
fails, because the drain loop never re-checks the other lanes. -/
theorem C3_deferred_drain_amended :
    (∀ (fuel : Nat) (s : QS), lanesMP s ≤ fuel →
        (mainLoop fuel s).priorityQueue = [] ∧ (mainLoop fuel s).mainQueue = []) ∧
    (∀ (s : QS) (it : Item) (rest : List Item) (fuel : Nat),
        s.priorityQueue = [] → s.mainQueue = [] → s.deferredQueue = it :: rest →
        deferredLoop (fuel + 1) s =
          deferredLoop fuel (execItem .deferred { s with deferredQueue := rest } it) ∧
        (execItem .deferred { s with deferredQueue := rest } it).log =
          s.log ++ [{ id := it.id, lane := .deferred, pPend := 0, mPend := 0,
                      start := s.clock, finish := s.clock + it.latency }]) ∧
    (∀ (fuel : Nat) (s : QS), dSize s ≤ fuel → (deferredLoop fuel s).deferredQueue = []) ∧
    (∀ a b c la lb lc : Nat,
        (runQueue 3 (startDeferred
            [Item.mk a la [(Lane.deferred, Item.mk c lc [])], Item.mk b lb []])).log.map
            (fun e => (e.id, e.lane)) =
          [(a, Lane.deferred), (b, Lane.deferred), (c, Lane.deferred)] ∧
        seqOK (runQueue 3 (startDeferred
            [Item.mk a la [(Lane.deferred, Item.mk c lc [])], Item.mk b lb []])).log = true ∧
        (runQueue 3 (startDeferred
            [Item.mk a la [(Lane.deferred, Item.mk c lc [])], Item.mk b lb []])).deferredQueue
          = [] ∧
        (runQueue 3 (startDeferred
            [Item.mk a la [(Lane.deferred, Item.mk c lc [])], Item.mk b lb []])).isRunning
          = false) := by
  refine ⟨mainLoop_drains, ?_, deferredLoop_drains, ?_⟩
  · intro s it rest fuel hp hm hd
    constructor
    · simp [deferredLoop, hd]
    · simp only [execItem]
      rw [(pushEffects_fields it.effects { s with deferredQueue := rest }).2.1]
      simp [hp, hm]
  · intro a b c la lb lc
    have hlog : (runQueue 3 (startDeferred
        [Item.mk a la [(Lane.deferred, Item.mk c lc [])], Item.mk b lb []])).log =
        [{ id := a, lane := .deferred, pPend := 0, mPend := 0, start := 0, finish := 0 + la },
         { id := b, lane := .deferred, pPend := 0, mPend := 0, start := 0 + la,
           finish := 0 + la + lb },
         { id := c, lane := .deferred, pPend := 0, mPend := 0, start := 0 + la + lb,
           finish := 0 + la + lb + lc }] := rfl
    exact ⟨by rw [hlog]; rfl, by rw [hlog]; simp [seqOK], rfl, rfl⟩

/-- Witness for the amended C3: each conjunct instantiated at concrete
inputs with its hypotheses discharged by evaluation. -/
theorem C3_deferred_drain_amended_witness :
    ((mainLoop 1 (startMain [Item.mk 4 0 []])).priorityQueue = [] ∧
      (mainLoop 1 (startMain [Item.mk 4 0 []])).mainQueue = []) ∧
    deferredLoop 1 { priorityQueue := [], mainQueue := [], deferredQueue := [Item.mk 5 0 []],
                     isRunning := true, clock := 0, log := [] } =
      deferredLoop 0 (execItem .deferred
        { priorityQueue := [], mainQueue := [], deferredQueue := [],
          isRunning := true, clock := 0, log := [] } (Item.mk 5 0 [])) ∧
    (deferredLoop 1 (startDeferred [Item.mk 6 0 []])).deferredQueue = [] ∧
    (runQueue 3 (startDeferred
        [Item.mk 1 0 [(Lane.deferred, Item.mk 3 0 [])], Item.mk 2 0 []])).log.map
        (fun e => (e.id, e.lane)) =
      [(1, Lane.deferred), (2, Lane.deferred), (3, Lane.deferred)] := by
  have h := C3_deferred_drain_amended
  refine ⟨h.1 1 (startMain [Item.mk 4 0 []]) (by decide), ?_, ?_, (h.2.2.2 1 2 3 0 0 0).1⟩
  · have h2 := h.2.1
      { priorityQueue := [], mainQueue := [], deferredQueue := [Item.mk 5 0 []],
        isRunning := true, clock := 0, log := [] }
      (Item.mk 5 0 []) [] 0 rfl rfl rfl
    exact h2.1
  · exact h.2.2.1 1 (startDeferred [Item.mk 6 0 []]) (by decide)

/-- Claim C9: the re-entrancy guard makes a nested `runQueue` call return
immediately, and a normal-lane item enqueued by a deferred item during the
deferred drain is not executed by the current runner — it stays pending in
the main lane after the runner goes idle, until a later enqueue (here
`addToQueue`) restarts the runner, which then executes it. -/
theorem C9_deferred_enqueues_stay_pending :
    (∀ (fuel : Nat) (s : QS), s.isRunning = true → runQueue fuel s = s) ∧
    (runQueue 2 (startDeferred [Item.mk 1 0 [(Lane.main, Item.mk 2 0 [])]])).log.map Entry.id
      = [1] ∧
    (runQueue 2 (startDeferred [Item.mk 1 0 [(Lane.main, Item.mk 2 0 [])]])).mainQueue.map
      Item.id = [2] ∧
    (runQueue 2 (startDeferred [Item.mk 1 0 [(Lane.main, Item.mk 2 0 [])]])).deferredQueue
      = [] ∧
    (runQueue 2 (startDeferred [Item.mk 1 0 [(Lane.main, Item.mk 2 0 [])]])).isRunning
      = false ∧
    (addToQueue 3 (Item.mk 3 0 [])
        (runQueue 2 (startDeferred [Item.mk 1 0 [(Lane.main, Item.mk 2 0 [])]]))).log.map
      Entry.id = [1, 2, 3] := by
  refine ⟨?_, rfl, rfl, rfl, rfl, rfl⟩
  intro fuel s h
  simp [runQueue, h]

/-- Witness for C9: the guard applied at a concrete running state. -/
theorem C9_deferred_enqueues_stay_pending_witness :
    runQueue 5 { priorityQueue := [], mainQueue := [Item.mk 4 0 []], deferredQueue := [],
                 isRunning := true, clock := 0, log := [] } =
      { priorityQueue := [], mainQueue := [Item.mk 4 0 []], deferredQueue := [],
        isRunning := true, clock := 0, log := [] } :=
  C9_deferred_enqueues_stay_pending.1 5 _ rfl

/-- Claim C4: an exception thrown by a work item's action — a rejecting
thenable argument, a synchronous throw, or a rejecting result — is caught
at the item boundary; the error handler receives exactly one call for that
failure, carrying the context descriptor built from the failing operation's
method name and originating selector; and the runner executes every item of
the chain, so a failure never stops subsequently enqueued items. -/
theorem C4_failure_isolation (ops : List Op) (op : Op) :
    (runChain ops).1 = ops.map Op.id ∧
    (runChain ops).2 = ops.filterMap failCall ∧
    (wrappedThunk op).length ≤ 1 ∧
    (∀ e, tryBody op = .error e →
      wrappedThunk op = [(e, giveContext op.method op.selector)]) := by
  refine ⟨?_, ?_, ?_, ?_⟩
  · induction ops with
    | nil => rfl
    | cons o rest ih => simp [runChain, ih]
  · induction ops with
    | nil => rfl
    | cons o rest ih =>
      cases h : tryBody o with
      | ok u => simp [runChain, wrappedThunk, failCall, h, ih]
      | error e => simp [runChain, wrappedThunk, failCall, h, ih]
  · cases h : tryBody op <;> simp [wrappedThunk, h]
  · intro e he
    simp [wrappedThunk, he]

/-- Witness for C4: a three-step chain whose middle action throws — all
three ids still run, and the handler is called exactly once with the
context naming the failing method and selector. -/
theorem C4_failure_isolation_witness :
    (runChain
        [{ id := 1, args := [JSVal.plain 5],
           fn := fun _ => Except.ok (JSResult.value 0), method := "text", selector := "#x" },
         { id := 2, args := [],
           fn := fun _ => Except.error "boom", method := "css", selector := "#x" },
         { id := 3, args := [JSVal.thenable (Except.ok 7)],
           fn := fun _ => Except.ok (JSResult.promise (Except.ok 1)), method := "html",
           selector := "#x" }]).1 = [1, 2, 3] ∧
    (runChain
        [{ id := 1, args := [JSVal.plain 5],
           fn := fun _ => Except.ok (JSResult.value 0), method := "text", selector := "#x" },
         { id := 2, args := [],
           fn := fun _ => Except.error "boom", method := "css", selector := "#x" },
         { id := 3, args := [JSVal.thenable (Except.ok 7)],
           fn := fun _ => Except.ok (JSResult.promise (Except.ok 1)), method := "html",
           selector := "#x" }]).2 = [("boom", "The method: css called on: #x")] ∧
    wrappedThunk
        { id := 2, args := [],
          fn := fun _ => Except.error "boom", method := "css", selector := "#x" } =
      [("boom", "The method: css called on: #x")] := by
  have h := C4_failure_isolation
    [{ id := 1, args := [JSVal.plain 5],
       fn := fun _ => Except.ok (JSResult.value 0), method := "text", selector := "#x" },
     { id := 2, args := [],
       fn := fun _ => Except.error "boom", method := "css", selector := "#x" },
     { id := 3, args := [JSVal.thenable (Except.ok 7)],
       fn := fun _ => Except.ok (JSResult.promise (Except.ok 1)), method := "html",
       selector := "#x" }]
    { id := 2, args := [],
      fn := fun _ => Except.error "boom", method := "css", selector := "#x" }
  exact ⟨h.1.trans rfl, h.2.1.trans rfl, (h.2.2.2 "boom" rfl).trans rfl⟩

/-- Counterexample to C5 as stated: on an idle queue with empty lanes and
no async argument, the chainable call does NOT return the façade before the
enqueued work runs — the action is invoked inside the call's synchronous
window (`runQueue()` executes its body up to the first `await`, which
evaluates the thunk, whose argument loop performs no await, so the action
runs), and only then is the façade returned. -/
theorem C5_counterexample_action_runs_before_return :
    (applyFuncCall { mainQueue := [], isRunning := false, events := [] }
        { id := 1, argAwaited := false }).events =
      [CEv.enqueued 1, CEv.actionInvoked 1, CEv.facadeReturned 1] ∧
    ¬ (occursBefore (CEv.facadeReturned 1) (CEv.actionInvoked 1)
        ((applyFuncCall { mainQueue := [], isRunning := false, events := [] }
          { id := 1, argAwaited := false }).events) = true) := by
  decide

/-- Claim C5 (amended): every chainable-operation call enqueues a unit of
work and returns the façade synchronously, the enqueue preceding the
return; the call returns before the enqueued action runs whenever the queue
is already mid-run, or when the queue is idle and empty but some argument
is async at call time; but when the queue is idle with an empty main lane
and all arguments are non-async, the enqueued action runs synchronously
during the call, before the façade is returned. -/
theorem C5_call_window_amended (s : CallQueue) (t : CThunk) :
    (s.isRunning = true →
      (applyFuncCall s t).events =
        s.events ++ [CEv.enqueued t.id, CEv.facadeReturned t.id]) ∧
    (s.isRunning = false → s.mainQueue = [] → t.argAwaited = true →
      (applyFuncCall s t).events =
        s.events ++ [CEv.enqueued t.id, CEv.facadeReturned t.id]) ∧
    (s.isRunning = false → s.mainQueue = [] → t.argAwaited = false →
      (applyFuncCall s t).events =
        s.events ++ [CEv.enqueued t.id, CEv.actionInvoked t.id, CEv.facadeReturned t.id]) := by
  refine ⟨?_, ?_, ?_⟩
  · intro h
    simp [applyFuncCall, runQueueSync, h]
  · intro h hq ha
    simp [applyFuncCall, runQueueSync, thunkSyncEvents, h, hq, ha]
  · intro h hq ha
    simp [applyFuncCall, runQueueSync, thunkSyncEvents, h, hq, ha]

/-- Witness for the amended C5: the three cases at concrete calls. -/
theorem C5_call_window_amended_witness :
    (applyFuncCall { mainQueue := [], isRunning := true, events := [] }
        { id := 2, argAwaited := false }).events =
      [CEv.enqueued 2, CEv.facadeReturned 2] ∧
    (applyFuncCall { mainQueue := [], isRunning := false, events := [] }
        { id := 3, argAwaited := true }).events =
      [CEv.enqueued 3, CEv.facadeReturned 3] ∧
    (applyFuncCall { mainQueue := [], isRunning := false, events := [] }
        { id := 4, argAwaited := false }).events =
      [CEv.enqueued 4, CEv.actionInvoked 4, CEv.facadeReturned 4] :=
  ⟨((C5_call_window_amended _ _).1 rfl).trans rfl,
   ((C5_call_window_amended _ _).2.1 rfl rfl rfl).trans rfl,
   ((C5_call_window_amended _ _).2.2 rfl rfl rfl).trans rfl⟩

theorem qsa_nil {doc : Doc} {sel : String} (h : querySelector doc sel = none) :
    querySelectorAll doc sel = [] := by
  simp only [querySelector, List.find?_eq_none] at h
  simp only [querySelectorAll, List.filter_eq_nil_iff]
  exact fun e he => h e he

/-- Claim C6: a selector string matching no element resolves to a result
holding no element handle — the all-match form is the empty array, the
first-match form a one-slot array holding null — and the non-strict
`createProxy` variant does not throw: it returns the warning and proceeds
with a façade over the element-less result; the strict `addProxy` variant
raises synchronously at call time. -/
theorem C6_no_match_resolution (doc : Doc) (sel : String)
    (hsel : isMarkup sel = false)
    (hnone : querySelector doc sel = none) :
    (getDOMElement doc (.str sel) false false).elems = [none] ∧
    (getDOMElement doc (.str sel) false true).elems = [] ∧
    (getDOMElement doc (.str sel) false false).elems.filterMap id = [] ∧
    createProxy doc "$" sel =
      (["No elements found for selector: " ++ sel],
       { selector := sel, targets := [none] }) ∧
    createProxy doc "$$" sel =
      (["No elements found for selector: " ++ sel],
       { selector := sel, targets := [] }) ∧
    addProxy doc "$" sel = .error ("No element found for selector: " ++ sel) ∧
    addProxy doc "$$" sel = .error ("No element found for selector: " ++ sel) := by
  have hall := qsa_nil hnone
  refine ⟨?_, ?_, ?_, ?_, ?_, ?_, ?_⟩ <;>
    simp [getDOMElement, getDOMElementR, createProxy, addProxy, falsyFirst,
      hsel, hnone, hall]

/-- Witness for C6 at a one-element document and the selector from the
spec's own example. -/
theorem C6_no_match_resolution_witness :
    (getDOMElement { elems := [{ eid := 0, tag := "div", sels := ["#app"] }], nextId := 1 }
        (.str "#missing") false false).elems = [none] ∧
    createProxy { elems := [{ eid := 0, tag := "div", sels := ["#app"] }], nextId := 1 }
        "$$" "#missing" =
      (["No elements found for selector: #missing"],
       { selector := "#missing", targets := [] }) ∧
    addProxy { elems := [{ eid := 0, tag := "div", sels := ["#app"] }], nextId := 1 }
        "$" "#missing" = .error "No element found for selector: #missing" := by
  have h := C6_no_match_resolution
    { elems := [{ eid := 0, tag := "div", sels := ["#app"] }], nextId := 1 } "#missing"
    (by decide) (by decide)
  exact ⟨h.1, h.2.2.2.2.1.trans rfl, h.2.2.2.2.2.1.trans rfl⟩

/-- Claim C7: an input string beginning with '<' is parsed into detached
elements; the resolver's sanitize parameter defaults to true, selecting the
sanitizing parse path, and the unsanitized path runs only when false is
passed explicitly; the fragment "<div>" yields exactly one new element
whose id is fresh, so it is not an element of the existing document. -/
theorem C7_markup_parse (doc : Doc) (s : String)
    (hs : isMarkup s = true)
    (hdoc : ∀ e ∈ doc.elems, e.eid < doc.nextId) :
    (getDOMElement doc (.str s)).parsed = some ParsePath.sanitized ∧
    (getDOMElement doc (.str s) false).parsed = some ParsePath.unsanitized ∧
    (getDOMElementR doc (.str s) {}).parsed = some ParsePath.sanitized ∧
    (getDOMElementR doc (.str s) { sanitize := false }).parsed =
      some ParsePath.unsanitized ∧
    (getDOMElement doc (.str "<div>")).elems =
      [some { eid := doc.nextId, tag := "div", sels := [] }] ∧
    (∀ e ∈ (getDOMElement doc (.str "<div>")).elems,
      ∀ el, e = some el → el ∉ doc.elems) := by
  refine ⟨?_, ?_, ?_, ?_, ?_, ?_⟩
  · simp [getDOMElement, createDOMFromString, hs]
  · simp [getDOMElement, createDOMFromString, hs]
  · simp [getDOMElementR, createDOMFromString, hs]
  · simp [getDOMElementR, createDOMFromString, hs]
  · rfl
  · intro e he el hel
    intro hmem
    have hid : el.eid = doc.nextId := by
      have : e = some { eid := doc.nextId, tag := "div", sels := [] } := by
        have h5 : (getDOMElement doc (.str "<div>")).elems =
            [some { eid := doc.nextId, tag := "div", sels := [] }] := rfl
        rw [h5] at he
        simpa using he
      rw [this] at hel
      cases hel
      rfl
    have := hdoc el hmem
    omega

/-- Witness for C7: a concrete one-element document; "<p>" takes the
sanitized path by default, "<div>" yields one fresh detached element. -/
theorem C7_markup_parse_witness :
    (getDOMElement { elems := [{ eid := 0, tag := "div", sels := ["#app"] }], nextId := 1 }
        (.str "<p>")).parsed = some ParsePath.sanitized ∧
    (getDOMElement { elems := [{ eid := 0, tag := "div", sels := ["#app"] }], nextId := 1 }
        (.str "<div>")).elems = [some { eid := 1, tag := "div", sels := [] }] ∧
    ({ eid := 1, tag := "div", sels := [] } : Elem) ∉
      ({ elems := [{ eid := 0, tag := "div", sels := ["#app"] }], nextId := 1 } : Doc).elems := by
  have h := C7_markup_parse
    { elems := [{ eid := 0, tag := "div", sels := ["#app"] }], nextId := 1 } "<p>"
    (by decide) (by decide)
  refine ⟨h.1, h.2.2.2.2.1, ?_⟩
  exact h.2.2.2.2.2 (some { eid := 1, tag := "div", sels := [] })
    (by rw [h.2.2.2.2.1]; simp) { eid := 1, tag := "div", sels := [] } rfl

theorem settled_applyCB (t : Nat) (c : CB) (s : PState) (h : s.settled = true) :
    applyCB t c s = s := by
  cases c <;> simp [applyCB, doResolve, doReject, h]

theorem settled_applyCBs (calls : List (Nat × CB)) :
    ∀ s : PState, s.settled = true → applyCBs calls s = s := by
  induction calls with
  | nil => intro s _; rfl
  | cons c cs ih =>
    intro s h
    simp only [applyCBs, List.foldl_cons]
    rw [settled_applyCB c.1 c.2 s h]
    exact ih s h

/-- Claim C8: when neither callback of a promisified function is invoked
before the timeout, the promise resolves with the empty result exactly at
the timeout, and the error handler is invoked exactly once, with the
timeout error and the supplied metadata object; later callback invocations
cannot block or change this.  The helper's defaults are a 5000ms timeout
and the anonymous metadata object. -/
theorem C8_timeout_resolves (timeout : Nat) (meta : Meta) (calls : List (Nat × CB))
    (h : ∀ c ∈ calls, ¬ c.1 < timeout) :
    (runPromisify timeout meta calls).outcome = some (POutcome.resolved "") ∧
    (runPromisify timeout meta calls).settledAt = some timeout ∧
    (runPromisify timeout meta calls).handlerCalls = [(timeoutMsg timeout, meta)] ∧
    promisifyDefaults = (5000, { fnName := "anonymous", fnArgs := "unknown" }) := by
  have hbefore : calls.filter (fun c => decide (c.1 < timeout)) = [] := by
    simp only [List.filter_eq_nil_iff, decide_eq_true_eq]
    exact h
  have hfin : runPromisify timeout meta calls =
      { settled := true, outcome := some (POutcome.resolved ""),
        handlerCalls := [(timeoutMsg timeout, meta)], settledAt := some timeout } := by
    simp only [runPromisify, hbefore]
    rw [show applyCBs [] initP = initP from rfl]
    rw [show fireTimeout timeout meta initP =
        { settled := true, outcome := some (POutcome.resolved ""),
          handlerCalls := [(timeoutMsg timeout, meta)], settledAt := some timeout } from by
      simp [fireTimeout, initP]]
    exact settled_applyCBs _ _ rfl
  rw [hfin]
  exact ⟨rfl, rfl, rfl, rfl⟩

/-- Witness for C8: a 50ms timeout whose resolve callback arrives only at
60ms — the promise auto-resolves empty at 50ms with one timeout report. -/
theorem C8_timeout_resolves_witness :
    (runPromisify 50 { fnName := "anonymous", fnArgs := "unknown" }
        [(60, CB.resolveCB "late")]).outcome = some (POutcome.resolved "") ∧
    (runPromisify 50 { fnName := "anonymous", fnArgs := "unknown" }
        [(60, CB.resolveCB "late")]).settledAt = some 50 ∧
    (runPromisify 50 { fnName := "anonymous", fnArgs := "unknown" }
        [(60, CB.resolveCB "late")]).handlerCalls =
      [("Timeout: 50ms exceeded.", { fnName := "anonymous", fnArgs := "unknown" })] := by
  have h := C8_timeout_resolves 50 { fnName := "anonymous", fnArgs := "unknown" }
    [(60, CB.resolveCB "late")] (by decide)
  exact ⟨h.1, h.2.1, h.2.2.1.trans rfl⟩

/-- Claim C10: a promisified invocation settles at most once — the first of
Resolve, Reject, or the timeout callback sets the settled flag and the
outcome, and every later Resolve, Reject, or timeout firing leaves the
state unchanged: neither the outcome nor the handler-call list moves. -/
theorem C10_settle_at_most_once :
    (∀ s : PState, s.settled = true →
      (∀ t c, applyCB t c s = s) ∧
      (∀ t m, fireTimeout t m s = s) ∧
      (∀ calls, applyCBs calls s = s)) ∧
    (∀ t v, (doResolve t v initP).settled = true ∧
      (doResolve t v initP).outcome = some (POutcome.resolved v)) ∧
    (∀ t r, (doReject t r initP).settled = true ∧
      (doReject t r initP).outcome = some (POutcome.rejected r)) ∧
    (∀ t m, (fireTimeout t m initP).settled = true ∧
      (fireTimeout t m initP).outcome = some (POutcome.resolved "")) := by
  refine ⟨?_, ?_, ?_, ?_⟩
  · intro s h
    exact ⟨fun t c => settled_applyCB t c s h,
           fun t m => by simp [fireTimeout, h],
           fun calls => settled_applyCBs calls s h⟩
  · intro t v
    exact ⟨rfl, rfl⟩
  · intro t r
    exact ⟨rfl, rfl⟩
  · intro t m
    exact ⟨rfl, rfl⟩

/-- Witness for C10: after an early resolve, a later reject and a later
timeout firing change nothing. -/
theorem C10_settle_at_most_once_witness :
    applyCB 9 (CB.rejectCB "late") (doResolve 1 "v" initP) = doResolve 1 "v" initP ∧
    fireTimeout 50 { fnName := "f", fnArgs := "a" } (doResolve 1 "v" initP) =
      doResolve 1 "v" initP := by
  have h := C10_settle_at_most_once.1 (doResolve 1 "v" initP) (by decide)
  exact ⟨h.1 9 (CB.rejectCB "late"), h.2.1 50 { fnName := "f", fnArgs := "a" }⟩
